import Mathlib

/-
Verification of the post-write MFA confirmation flow of the vault CLI
write command (src/command/write.go).

The embedding below translates, function by function, the MFA-related part
of write.go: isInteractiveEnabled (lines 180-190), getMFAMethodInfo
(lines 194-208), validateMFA (lines 210-262) and the MFA branch of Run
(lines 158-177).  Effects (terminal prompts, UI messages, client writes,
response rendering) are recorded as an explicit event trace, and the Go
int return value of each function becomes an explicit exit code.  The
collaborators the command calls but whose code is outside this excerpt
(the terminal, the HTTP client, the shared renderers) are supplied through
an explicit environment record, as section 6 of the design document lists
them.
-/

namespace Vault

/-- Authentication method descriptor (logical.MFAMethodID from the vault
sdk): the fields write.go reads are Type, ID and UsesPasscode. -/
structure MFAMethodID where
  «Type» : String
  ID : String
  UsesPasscode : Bool
deriving DecidableEq, Repr

/-- One MFA constraint: a set of alternative methods, any one of which
satisfies the constraint (logical.MFAConstraintAny). -/
structure MFAConstraintAny where
  Any : List MFAMethodID
deriving DecidableEq, Repr

/-- The MFA requirement attached to a write response
(logical.MFARequirement).  The Go field MFAConstraints is a map from
constraint name to constraint; it is embedded as an association list. -/
structure MFARequirement where
  MFARequestID : String
  MFAConstraints : List (String × MFAConstraintAny)
deriving DecidableEq, Repr

/-- MFAMethodInfo from write.go lines 21-25. -/
structure MFAMethodInfo where
  methodID : String
  methodType : String
  usePasscode : Bool
deriving DecidableEq, Repr

/-- The Auth part of an api.Secret; only the field write.go reads is
modelled. -/
structure SecretAuth where
  MFARequirement : Option MFARequirement
deriving DecidableEq, Repr

/-- An api.Secret response; only the field the MFA flow reads is
modelled, the rest of the response is opaque to this code. -/
structure Secret where
  Auth : Option SecretAuth
deriving DecidableEq, Repr

/-- A Go value appearing in the body map of the confirmation write:
either a string (the request id) or a map from string to string list
(the mfa payload). -/
inductive GoValue where
  | str (s : String)
  | strListMap (m : List (String × List String))
deriving DecidableEq, Repr

/-- Observable effects of the command, in order of occurrence. -/
inductive Event where
  | askSecret (prompt : String)
  | uiError (msg : String)
  | uiWarn (msg : String)
  | uiInfo (msg : String)
  | outputSecret (s : Secret)
  | printRawField (s : Secret) (field : String)
  | clientWrite (path : String) (body : List (String × GoValue))
deriving DecidableEq, Repr

/-- The out-of-scope collaborators of the handler, as inputs: the result
the terminal prompt would produce, whether the client can be constructed,
the outcome of the one confirmation write, and the output flags. -/
structure Env where
  askSecretResult : Except String String
  clientErr : Option String
  mfaWriteSecret : Option Secret
  mfaWriteErr : Option String
  format : String
  flagField : String

/-- Modelled from the spec: OutputSecret lives in the repository outside
this excerpt; per the design document it renders the full structured
response through the shared rendering path and the invocation exits 0 on
success. -/
def OutputSecret (s : Secret) : List Event × Nat :=
  ([Event.outputSecret s], 0)

/-- Modelled from the spec: PrintRawField lives in the repository outside
this excerpt; per the design document it prints the requested single field
through the shared rendering path and the invocation exits 0 on success. -/
def PrintRawField (s : Secret) (field : String) : List Event × Nat :=
  ([Event.printRawField s field], 0)

/-- Modelled from the spec: wrapAtLength lives in the repository outside
this excerpt; the design document does not describe text wrapping, and no
claim depends on line breaks, so it is modelled as the identity on the
message text. -/
def wrapAtLength (s : String) : String := s

/-- The Go format verb q wraps its argument in double quotes.  Escaping of
special characters inside the argument is not modelled; no claim exercises
it. -/
def goQuote (s : String) : String := "\"" ++ s ++ "\""

/-- write.go lines 180-190.  The Go method reads os.Stdin and the
flagNonInteractive field; both are passed explicitly. -/
def isInteractiveEnabled (flagNonInteractive : Bool) (stdinIsTerminal : Bool)
    (mfaConstraintLen : Nat) : Bool :=
  if mfaConstraintLen != 1 || !stdinIsTerminal then
    false
  else if !flagNonInteractive then
    true
  else
    false

/-- The zero value MFAMethodInfo of Go, returned by getMFAMethodInfo when
no single method is configured. -/
def emptyMethodInfo : MFAMethodInfo :=
  { methodID := "", methodType := "", usePasscode := false }

/-- write.go lines 194-208: returns MFA method information only if one MFA
method is configured.  The Go range over the map inspects one entry and
returns from the loop body; on the association list this is the head
entry. -/
def getMFAMethodInfo : List (String × MFAConstraintAny) → MFAMethodInfo
  | [] => emptyMethodInfo
  | (_, mfaConstraint) :: _ =>
    match mfaConstraint.Any with
    | [m] =>
      { methodType := m.«Type», methodID := m.ID, usePasscode := m.UsesPasscode }
    | _ => emptyMethodInfo

/-- The prompt of write.go line 214. -/
def passcodePrompt (methodInfo : MFAMethodInfo) : String :=
  "Enter the passphrase for methodID " ++ goQuote methodInfo.methodID ++
    " of type " ++ goQuote methodInfo.methodType ++ ":"

/-- The error message of write.go line 216. -/
def readFailMsg (errMsg : String) : String :=
  "failed to read the passphrase with error " ++ goQuote errMsg ++
    ". please validate the login by sending a request to sys/mfa/validate"

/-- The notice of write.go lines 220-221. -/
def pushNotice : String :=
  "Asking Vault to perform MFA validation with upstream service. " ++
    "You should receive a push notification in your authenticator app shortly"

/-- The success message of write.go lines 153 and 251. -/
def successMsg (path : String) : String :=
  "Success! Data written to: " ++ path

/-- The fixed confirmation path, write.go line 235. -/
def validatePath : String := "sys/mfa/validate"

/-- The deferral warning of write.go lines 167-169. -/
def mfaDeferWarn : String :=
  wrapAtLength ("A login request was issued that is subject to " ++
    "MFA validation. Please make sure to validate the login by sending another " ++
    "request to sys/mfa/validate endpoint.") ++ "\n"

/-- The body map of the confirmation write, write.go lines 237-240. -/
def validateBody (reqID : String) (mfaPayload : List (String × List String)) :
    List (String × GoValue) :=
  [("mfa_request_id", GoValue.str reqID), ("mfa_payload", GoValue.strListMap mfaPayload)]

/-- write.go lines 211-222: the passcode collection step of validateMFA.
Returns the events emitted so far, and the passcode when the function
continues (none means the early return 2 of line 217 was taken).  When
usePasscode is false the Go variable passcode keeps its zero value. -/
def collectPasscode (env : Env) (methodInfo : MFAMethodInfo) :
    List Event × Option String :=
  if methodInfo.usePasscode then
    match env.askSecretResult with
    | Except.ok passcode =>
      ([Event.askSecret (passcodePrompt methodInfo)], some passcode)
    | Except.error e =>
      ([Event.askSecret (passcodePrompt methodInfo), Event.uiError (readFailMsg e)], none)
  else
    ([Event.uiWarn pushNotice], some "")

/-- write.go lines 210-262: validateMFA.  Returns the event trace and the
Go int return value. -/
def validateMFA (env : Env) (reqID : String) (methodInfo : MFAMethodInfo) :
    List Event × Nat :=
  match collectPasscode env methodInfo with
  | (evs, none) => (evs, 2)
  | (evs, some passcode) =>
    let mfaPayload : List (String × List String) := [(methodInfo.methodID, [passcode])]
    match env.clientErr with
    | some e => (evs ++ [Event.uiError e], 2)
    | none =>
      let writeEv := Event.clientWrite validatePath (validateBody reqID mfaPayload)
      match env.mfaWriteErr with
      | some e =>
        match env.mfaWriteSecret with
        | some s => (evs ++ [writeEv, Event.uiError e] ++ (OutputSecret s).1, 2)
        | none => (evs ++ [writeEv, Event.uiError e], 2)
      | none =>
        match env.mfaWriteSecret with
        | none =>
          if env.format == "table" then
            (evs ++ [writeEv, Event.uiInfo (successMsg validatePath)], 0)
          else
            (evs ++ [writeEv], 0)
        | some secret =>
          if env.flagField != "" then
            (evs ++ [writeEv] ++ (PrintRawField secret env.flagField).1,
              (PrintRawField secret env.flagField).2)
          else
            (evs ++ [writeEv] ++ (OutputSecret secret).1,
              (OutputSecret secret).2)

/-- write.go lines 158-177: the tail of Run after the original write
returned a non-nil secret without error.  Covers the MFA branch and the
final rendering of the response. -/
def runWithSecret (env : Env) (stdinIsTerminal flagNonInteractive : Bool)
    (secret : Secret) : List Event × Nat :=
  let mfaStep : List Event × Option (List Event × Nat) :=
    match secret.Auth with
    | some auth =>
      match auth.MFARequirement with
      | some req =>
        if isInteractiveEnabled flagNonInteractive stdinIsTerminal
            req.MFAConstraints.length then
          let methodInfo := getMFAMethodInfo req.MFAConstraints
          if methodInfo.methodID != "" then
            ([], some (validateMFA env req.MFARequestID methodInfo))
          else
            ([Event.uiWarn mfaDeferWarn], none)
        else
          ([Event.uiWarn mfaDeferWarn], none)
      | none => ([], none)
    | none => ([], none)
  match mfaStep with
  | (evs, some result) => (evs ++ result.1, result.2)
  | (evs, none) =>
    if env.flagField != "" then
      (evs ++ (PrintRawField secret env.flagField).1, (PrintRawField secret env.flagField).2)
    else
      (evs ++ (OutputSecret secret).1, (OutputSecret secret).2)

/-- The eligibility decision of the design document, as a tagged variant. -/
inductive Decision where
  | AutoResolve (method : MFAMethodInfo)
  | Defer
deriving DecidableEq, Repr

/-- The eligibility decision implemented by Run, write.go lines 159-166:
AutoResolve stands for the call to validateMFA, Defer for falling through
to the deferral warning. -/
def evaluateRequirement (req : MFARequirement) (stdinIsTerminal flagNonInteractive : Bool) :
    Decision :=
  if isInteractiveEnabled flagNonInteractive stdinIsTerminal
      req.MFAConstraints.length then
    let methodInfo := getMFAMethodInfo req.MFAConstraints
    if methodInfo.methodID != "" then
      Decision.AutoResolve methodInfo
    else
      Decision.Defer
  else
    Decision.Defer

/-- Recognizer for client write events in a trace. -/
def isClientWriteEv : Event → Bool
  | Event.clientWrite _ _ => true
  | _ => false

/-- A message references the validate endpoint when the endpoint path
occurs in it as a substring. -/
def referencesValidate (msg : String) : Prop :=
  ∃ a b : String, msg = a ++ "sys/mfa/validate" ++ b

/-- The response body b is rendered before the error message e in trace
tr: an outputSecret event for b occurs at a strictly earlier position than
a uiError event for e. -/
def rendersBodyBeforeError (tr : List Event) (b : Secret) (e : String) : Prop :=
  ∃ i j : Fin tr.length, (i : Nat) < (j : Nat) ∧
    tr.get i = Event.outputSecret b ∧ tr.get j = Event.uiError e

instance (tr : List Event) (b : Secret) (e : String) :
    Decidable (rendersBodyBeforeError tr b e) :=
  decidable_of_iff
    (∃ i j : Fin tr.length, (i : Nat) < (j : Nat) ∧
      tr.get i = Event.outputSecret b ∧ tr.get j = Event.uiError e) Iff.rfl

end Vault


namespace Vault

/-- The passcode collection step emits no client write event. -/
theorem collectPasscode_no_write (env : Env) (mi : MFAMethodInfo) :
    List.filter isClientWriteEv (collectPasscode env mi).1 = [] := by
  by_cases hp : mi.usePasscode <;>
    cases hask : env.askSecretResult <;>
    simp [collectPasscode, hp, hask, isClientWriteEv]

/-- The passcode collection step emits no prompt event when the method
does not use a passcode. -/
theorem collectPasscode_no_ask (env : Env) (mi : MFAMethodInfo)
    (hp : mi.usePasscode = false) :
    ∀ pr, Event.askSecret pr ∉ (collectPasscode env mi).1 := by
  simp [collectPasscode, hp]

/-- validateMFA when the passcode read aborts: the collected events and
the early return 2 of write.go line 217. -/
theorem validateMFA_abort (env : Env) (rid : String) (mi : MFAMethodInfo)
    (cevs : List Event) (h : collectPasscode env mi = (cevs, none)) :
    validateMFA env rid mi = (cevs, 2) := by
  simp [validateMFA, h]

/-- validateMFA when the client cannot be constructed, write.go lines
229-233. -/
theorem validateMFA_clientErr (env : Env) (rid : String) (mi : MFAMethodInfo)
    (cevs : List Event) (p e : String)
    (h : collectPasscode env mi = (cevs, some p)) (he : env.clientErr = some e) :
    validateMFA env rid mi = (cevs ++ [Event.uiError e], 2) := by
  simp [validateMFA, h, he]

/-- Shape of every validateMFA run that reaches the confirmation write:
the collected events, then exactly one client write carrying the submitted
body, then a tail holding no further write and no prompt. -/
theorem validateMFA_write_shape (env : Env) (rid : String) (mi : MFAMethodInfo)
    (cevs : List Event) (p : String)
    (h : collectPasscode env mi = (cevs, some p)) (he : env.clientErr = none) :
    ∃ tail code, validateMFA env rid mi =
      (cevs ++ Event.clientWrite validatePath (validateBody rid [(mi.methodID, [p])]) :: tail,
        code) ∧
      List.filter isClientWriteEv tail = [] ∧
      (∀ pr, Event.askSecret pr ∉ tail) := by
  cases hw : env.mfaWriteErr with
  | some e =>
    cases hs : env.mfaWriteSecret with
    | some s =>
      refine ⟨[Event.uiError e, Event.outputSecret s], 2, ?_, by simp [isClientWriteEv],
        by simp⟩
      simp [validateMFA, h, he, hw, hs, OutputSecret]
    | none =>
      refine ⟨[Event.uiError e], 2, ?_, by simp [isClientWriteEv], by simp⟩
      simp [validateMFA, h, he, hw, hs]
  | none =>
    cases hs : env.mfaWriteSecret with
    | some s =>
      by_cases hff : env.flagField = ""
      · refine ⟨[Event.outputSecret s], 0, ?_, by simp [isClientWriteEv], by simp⟩
        simp [validateMFA, h, he, hw, hs, hff, OutputSecret]
      · refine ⟨[Event.printRawField s env.flagField], 0, ?_, by simp [isClientWriteEv],
          by simp⟩
        simp [validateMFA, h, he, hw, hs, hff, PrintRawField]
    | none =>
      by_cases hfmt : env.format = "table"
      · refine ⟨[Event.uiInfo (successMsg validatePath)], 0, ?_, by simp [isClientWriteEv],
          by simp⟩
        simp [validateMFA, h, he, hw, hs, hfmt]
      · refine ⟨[], 0, ?_, by simp [isClientWriteEv], by simp⟩
        simp [validateMFA, h, he, hw, hs, hfmt]

/-- C1: the claim as frozen fails on the code.  A requirement with exactly
one constraint holding exactly one method, in an interactive session, is
nevertheless deferred when the method id is the empty string, because Run
line 163 additionally requires a non-empty method id. -/
theorem C1_counterexample :
    (MFARequirement.mk "rid" [("c1", ⟨[⟨"totp", "", true⟩]⟩)]).MFAConstraints.length = 1 ∧
    (∀ pr ∈ (MFARequirement.mk "rid" [("c1", ⟨[⟨"totp", "", true⟩]⟩)]).MFAConstraints,
      pr.2.Any.length = 1) ∧
    evaluateRequirement (MFARequirement.mk "rid" [("c1", ⟨[⟨"totp", "", true⟩]⟩)]) true false =
      Decision.Defer := by
  decide

/-- C1 (amended): the eligibility decision returns AutoResolve exactly
when the requirement has exactly one constraint, that constraint has
exactly one method, that method has a non-empty id, and the session is
interactive (stdin a terminal and the non-interactive flag unset); in
every other case it returns Defer. -/
theorem C1_eligibility_decision (req : MFARequirement) (tty ni : Bool) :
    evaluateRequirement req tty ni ≠ Decision.Defer ↔
      ((∃ name c m, req.MFAConstraints = [(name, c)] ∧ c.Any = [m] ∧ m.ID ≠ "") ∧
        tty = true ∧ ni = false) := by
  obtain ⟨rid, cs⟩ := req
  rcases cs with _ | ⟨⟨name, ⟨anyList⟩⟩, _ | ⟨c2, rest⟩⟩
  · simp [evaluateRequirement, isInteractiveEnabled]
  · rcases anyList with _ | ⟨m, _ | ⟨m2, ms⟩⟩
    · cases tty <;> cases ni <;>
        simp [evaluateRequirement, isInteractiveEnabled, getMFAMethodInfo, emptyMethodInfo]
    · cases tty <;> cases ni <;>
        by_cases hm : m.ID = "" <;>
        simp [evaluateRequirement, isInteractiveEnabled, getMFAMethodInfo, hm] <;>
        exact ⟨name, ⟨[m]⟩, ⟨rfl, rfl⟩, m, rfl, hm⟩
    · cases tty <;> cases ni <;>
        simp [evaluateRequirement, isInteractiveEnabled, getMFAMethodInfo, emptyMethodInfo]
  · simp [evaluateRequirement, isInteractiveEnabled]

/-- C2: an auto-resolved requirement with request id rid, single method id
m and collected passcode p submits exactly one client write, to the path
sys/mfa/validate, whose body maps mfa_request_id to rid and mfa_payload to
the one-entry map from m to the one-element list holding p. -/
theorem C2_confirmation_body (env : Env) (rid : String) (mi : MFAMethodInfo) (p : String)
    (hcollect : (mi.usePasscode = true ∧ env.askSecretResult = Except.ok p) ∨
      (mi.usePasscode = false ∧ p = ""))
    (hclient : env.clientErr = none) :
    List.filter isClientWriteEv (validateMFA env rid mi).1 =
      [Event.clientWrite validatePath (validateBody rid [(mi.methodID, [p])])] := by
  have hc : ∃ cevs, collectPasscode env mi = (cevs, some p) := by
    rcases hcollect with ⟨hp, hask⟩ | ⟨hp, hp0⟩
    · exact ⟨[Event.askSecret (passcodePrompt mi)], by simp [collectPasscode, hp, hask]⟩
    · exact ⟨[Event.uiWarn pushNotice], by simp [collectPasscode, hp, hp0]⟩
  obtain ⟨cevs, hc⟩ := hc
  obtain ⟨tail, code, heq, htail, -⟩ := validateMFA_write_shape env rid mi cevs p hc hclient
  have hcevs := collectPasscode_no_write env mi
  rw [hc] at hcevs
  simp only at hcevs
  rw [heq]
  simp [List.filter_append, hcevs, htail, isClientWriteEv]

/-- Witness for C2 at the first example scenario of the design document. -/
theorem C2_confirmation_body_witness :
    List.filter isClientWriteEv
        (validateMFA ⟨Except.ok "123456", none, none, none, "table", ""⟩ "rid"
          ⟨"m1", "totp", true⟩).1 =
      [Event.clientWrite validatePath (validateBody "rid" [("m1", ["123456"])])] :=
  C2_confirmation_body ⟨Except.ok "123456", none, none, none, "table", ""⟩ "rid"
    ⟨"m1", "totp", true⟩ "123456" (Or.inl ⟨rfl, rfl⟩) rfl

end Vault

namespace Vault

/-- An event list whose client-write filter is empty holds no client
write. -/
theorem no_write_of_filter_nil (tail : List Event)
    (htail : List.filter isClientWriteEv tail = [])
    (pa : String) (body : List (String × GoValue)) : Event.clientWrite pa body ∉ tail := by
  intro hmem
  have hf : Event.clientWrite pa body ∈ List.filter isClientWriteEv tail :=
    List.mem_filter.mpr ⟨hmem, by simp [isClientWriteEv]⟩
  rw [htail] at hf
  simp at hf

/-- The read failure message of write.go line 216 mentions the validate
endpoint. -/
theorem readFailMsg_references (e : String) : referencesValidate (readFailMsg e) := by
  refine ⟨"failed to read the passphrase with error " ++ goQuote e ++
    ". please validate the login by sending a request to ", "", ?_⟩
  rw [String.append_empty, String.append_assoc]
  have h : (". please validate the login by sending a request to " ++ "sys/mfa/validate" :
      String) = ". please validate the login by sending a request to sys/mfa/validate" := by
    decide
  rw [h]
  simp only [readFailMsg]

/-- C3: the claim as frozen fails on the code: at this input the
confirmation write fails and a response body is returned, the run exits 2,
the body is rendered, yet not before the error message, because write.go
lines 241-247 print the error first. -/
theorem C3_counterexample :
    (validateMFA ⟨Except.ok "x", none, some ⟨none⟩, some "permission denied", "table", ""⟩
      "rid" ⟨"m1", "push", false⟩).2 = 2 ∧
    Event.outputSecret ⟨none⟩ ∈
      (validateMFA ⟨Except.ok "x", none, some ⟨none⟩, some "permission denied", "table", ""⟩
        "rid" ⟨"m1", "push", false⟩).1 ∧
    ¬ rendersBodyBeforeError
      (validateMFA ⟨Except.ok "x", none, some ⟨none⟩, some "permission denied", "table", ""⟩
        "rid" ⟨"m1", "push", false⟩).1 ⟨none⟩ "permission denied" := by
  decide

/-- C3 (amended): every failed confirmation submission makes the run exit
with code 2, and when the server returned a response body alongside the
error, the body is rendered immediately after the error message. -/
theorem C3_confirmation_failed (env : Env) (rid : String) (mi : MFAMethodInfo) (e : String)
    (hok : mi.usePasscode = false ∨ ∃ p, env.askSecretResult = Except.ok p)
    (hclient : env.clientErr = none) (herr : env.mfaWriteErr = some e) :
    (validateMFA env rid mi).2 = 2 ∧
    ∀ b, env.mfaWriteSecret = some b →
      ∃ pre, (validateMFA env rid mi).1 = pre ++ [Event.uiError e, Event.outputSecret b] := by
  have hc : ∃ cevs p, collectPasscode env mi = (cevs, some p) := by
    by_cases hp : mi.usePasscode
    · rcases hok with hp0 | ⟨p, hask⟩
      · rw [hp] at hp0; cases hp0
      · exact ⟨[Event.askSecret (passcodePrompt mi)], p, by simp [collectPasscode, hp, hask]⟩
    · exact ⟨[Event.uiWarn pushNotice], "", by simp [collectPasscode, hp]⟩
  obtain ⟨cevs, p, hc⟩ := hc
  cases hs : env.mfaWriteSecret with
  | some b =>
    constructor
    · simp [validateMFA, hc, hclient, herr, hs, OutputSecret]
    · intro b' hb'
      obtain rfl : b = b' := Option.some.inj hb'
      refine ⟨cevs ++ [Event.clientWrite validatePath (validateBody rid [(mi.methodID, [p])])],
        ?_⟩
      simp [validateMFA, hc, hclient, herr, hs, OutputSecret]
  | none =>
    constructor
    · simp [validateMFA, hc, hclient, herr, hs]
    · intro b hb
      exact Option.noConfusion hb

/-- Witness for C3 (amended) at a concrete failing submission. -/
theorem C3_confirmation_failed_witness :
    (validateMFA ⟨Except.ok "x", none, some ⟨none⟩, some "permission denied", "table", ""⟩
      "rid" ⟨"m1", "push", false⟩).2 = 2 ∧
    ∀ b, (⟨Except.ok "x", none, some ⟨none⟩, some "permission denied", "table", ""⟩ :
        Env).mfaWriteSecret = some b →
      ∃ pre, (validateMFA ⟨Except.ok "x", none, some ⟨none⟩, some "permission denied",
          "table", ""⟩ "rid" ⟨"m1", "push", false⟩).1 =
        pre ++ [Event.uiError "permission denied", Event.outputSecret b] :=
  C3_confirmation_failed
    ⟨Except.ok "x", none, some ⟨none⟩, some "permission denied", "table", ""⟩
    "rid" ⟨"m1", "push", false⟩ "permission denied" (Or.inl rfl) rfl rfl

/-- C4: when the method uses a passcode and the secret prompt fails, the
run exits with code 2, performs no client write, and reports an error
message that references the validate endpoint. -/
theorem C4_prompt_failure (env : Env) (rid : String) (mi : MFAMethodInfo) (e : String)
    (hp : mi.usePasscode = true) (hask : env.askSecretResult = Except.error e) :
    (validateMFA env rid mi).2 = 2 ∧
    (∀ pa body, Event.clientWrite pa body ∉ (validateMFA env rid mi).1) ∧
    Event.uiError (readFailMsg e) ∈ (validateMFA env rid mi).1 ∧
    referencesValidate (readFailMsg e) := by
  have hc : collectPasscode env mi =
      ([Event.askSecret (passcodePrompt mi), Event.uiError (readFailMsg e)], none) := by
    simp [collectPasscode, hp, hask]
  rw [validateMFA_abort env rid mi _ hc]
  exact ⟨rfl, by simp, by simp, readFailMsg_references e⟩

/-- Witness for C4 at a concrete failed prompt. -/
theorem C4_prompt_failure_witness :
    (validateMFA ⟨Except.error "EOF", none, none, none, "table", ""⟩ "rid"
      ⟨"m1", "totp", true⟩).2 = 2 ∧
    (∀ pa body, Event.clientWrite pa body ∉
      (validateMFA ⟨Except.error "EOF", none, none, none, "table", ""⟩ "rid"
        ⟨"m1", "totp", true⟩).1) ∧
    Event.uiError (readFailMsg "EOF") ∈
      (validateMFA ⟨Except.error "EOF", none, none, none, "table", ""⟩ "rid"
        ⟨"m1", "totp", true⟩).1 ∧
    referencesValidate (readFailMsg "EOF") :=
  C4_prompt_failure ⟨Except.error "EOF", none, none, none, "table", ""⟩ "rid"
    ⟨"m1", "totp", true⟩ "EOF" rfl rfl

/-- C5: a method that does not use a passcode never prompts for input, the
push notice is emitted, and the passcode value in any submitted payload is
the empty string. -/
theorem C5_push_method (env : Env) (rid : String) (mi : MFAMethodInfo)
    (hp : mi.usePasscode = false) :
    (∀ pr, Event.askSecret pr ∉ (validateMFA env rid mi).1) ∧
    Event.uiWarn pushNotice ∈ (validateMFA env rid mi).1 ∧
    (∀ pa body, Event.clientWrite pa body ∈ (validateMFA env rid mi).1 →
      body = validateBody rid [(mi.methodID, [""])]) := by
  have hc : collectPasscode env mi = ([Event.uiWarn pushNotice], some "") := by
    simp [collectPasscode, hp]
  cases he : env.clientErr with
  | some e =>
    rw [validateMFA_clientErr env rid mi _ "" e hc he]
    exact ⟨by simp, by simp, by intro pa body hmem; simp at hmem⟩
  | none =>
    obtain ⟨tail, code, heq, htail, haskt⟩ := validateMFA_write_shape env rid mi _ "" hc he
    rw [heq]
    refine ⟨?_, by simp, ?_⟩
    · intro pr
      simp [haskt pr]
    · intro pa body hmem
      simp only [List.mem_append, List.mem_cons, List.mem_singleton] at hmem
      rcases hmem with h | h | h
      · exact absurd h (by simp)
      · simp only [Event.clientWrite.injEq] at h
        exact h.2
      · exact absurd h (no_write_of_filter_nil tail htail pa body)

/-- Witness for C5 at the second example scenario of the design
document. -/
theorem C5_push_method_witness :
    (∀ pr, Event.askSecret pr ∉
      (validateMFA ⟨Except.ok "x", none, none, none, "table", ""⟩ "rid"
        ⟨"m1", "push", false⟩).1) ∧
    Event.uiWarn pushNotice ∈
      (validateMFA ⟨Except.ok "x", none, none, none, "table", ""⟩ "rid"
        ⟨"m1", "push", false⟩).1 ∧
    (∀ pa body, Event.clientWrite pa body ∈
        (validateMFA ⟨Except.ok "x", none, none, none, "table", ""⟩ "rid"
          ⟨"m1", "push", false⟩).1 →
      body = validateBody "rid" [("m1", [""])]) :=
  C5_push_method ⟨Except.ok "x", none, none, none, "table", ""⟩ "rid"
    ⟨"m1", "push", false⟩ rfl

/-- C6: when the method uses a passcode and the prompt succeeds with the
string s, the passcode value in any submitted payload is exactly s. -/
theorem C6_exact_passcode (env : Env) (rid : String) (mi : MFAMethodInfo) (s : String)
    (hp : mi.usePasscode = true) (hask : env.askSecretResult = Except.ok s) :
    ∀ pa body, Event.clientWrite pa body ∈ (validateMFA env rid mi).1 →
      body = validateBody rid [(mi.methodID, [s])] := by
  have hc : collectPasscode env mi = ([Event.askSecret (passcodePrompt mi)], some s) := by
    simp [collectPasscode, hp, hask]
  cases he : env.clientErr with
  | some e =>
    rw [validateMFA_clientErr env rid mi _ s e hc he]
    intro pa body hmem
    simp at hmem
  | none =>
    obtain ⟨tail, code, heq, htail, -⟩ := validateMFA_write_shape env rid mi _ s hc he
    rw [heq]
    intro pa body hmem
    simp only [List.mem_append, List.mem_cons, List.mem_singleton] at hmem
    rcases hmem with h | h | h
    · exact absurd h (by simp)
    · simp only [Event.clientWrite.injEq] at h
      exact h.2
    · exact absurd h (no_write_of_filter_nil tail htail pa body)

/-- Witness for C6: the prompt returns 123456, a write carrying that body
occurs, and the theorem applied to it yields exactly that body. -/
theorem C6_exact_passcode_witness :
    Event.clientWrite validatePath (validateBody "rid" [("m1", ["123456"])]) ∈
      (validateMFA ⟨Except.ok "123456", none, none, none, "table", ""⟩ "rid"
        ⟨"m1", "totp", true⟩).1 ∧
    validateBody "rid" [("m1", ["123456"])] = validateBody "rid" [("m1", ["123456"])] := by
  have hmem : Event.clientWrite validatePath (validateBody "rid" [("m1", ["123456"])]) ∈
      (validateMFA ⟨Except.ok "123456", none, none, none, "table", ""⟩ "rid"
        ⟨"m1", "totp", true⟩).1 := by decide
  exact ⟨hmem, C6_exact_passcode ⟨Except.ok "123456", none, none, none, "table", ""⟩
    "rid" ⟨"m1", "totp", true⟩ "123456" rfl rfl validatePath
    (validateBody "rid" [("m1", ["123456"])]) hmem⟩

end Vault

namespace Vault

/-- A requirement that is not single-constraint single-method is always
deferred, whatever the session looks like. -/
theorem evaluateRequirement_defer_of_multi (req : MFARequirement) (tty ni : Bool)
    (h : req.MFAConstraints.length ≠ 1 ∨
      ∀ name c, req.MFAConstraints = [(name, c)] → c.Any.length ≠ 1) :
    evaluateRequirement req tty ni = Decision.Defer := by
  obtain ⟨rid, cs⟩ := req
  rcases cs with _ | ⟨⟨name, ⟨anyList⟩⟩, _ | ⟨c2, rest⟩⟩
  · cases tty <;> cases ni <;> simp [evaluateRequirement, isInteractiveEnabled]
  · rcases h with h | h
    · simp at h
    · have h1 := h name ⟨anyList⟩ rfl
      rcases anyList with _ | ⟨m, _ | ⟨m2, ms⟩⟩
      · cases tty <;> cases ni <;>
          simp [evaluateRequirement, isInteractiveEnabled, getMFAMethodInfo, emptyMethodInfo]
      · simp at h1
      · cases tty <;> cases ni <;>
          simp [evaluateRequirement, isInteractiveEnabled, getMFAMethodInfo, emptyMethodInfo]
  · cases tty <;> cases ni <;> simp [evaluateRequirement, isInteractiveEnabled]

/-- When the decision is AutoResolve, the tail of Run behaves as
validateMFA on the requirement's request id and the selected method. -/
theorem runWithSecret_auto (env : Env) (tty ni : Bool) (secret : Secret)
    (auth : SecretAuth) (req : MFARequirement) (mi : MFAMethodInfo)
    (hauth : secret.Auth = some auth) (hreq : auth.MFARequirement = some req)
    (hdec : evaluateRequirement req tty ni = Decision.AutoResolve mi) :
    runWithSecret env tty ni secret = validateMFA env req.MFARequestID mi := by
  obtain ⟨authOpt⟩ := secret
  obtain rfl : authOpt = some auth := hauth
  obtain ⟨reqOpt⟩ := auth
  obtain rfl : reqOpt = some req := hreq
  by_cases hi : isInteractiveEnabled ni tty req.MFAConstraints.length = true
  · by_cases hid : (getMFAMethodInfo req.MFAConstraints).methodID = ""
    · exfalso
      have hd : evaluateRequirement req tty ni = Decision.Defer := by
        simp [evaluateRequirement, hi, hid]
      rw [hd] at hdec
      exact Decision.noConfusion hdec
    · obtain rfl : getMFAMethodInfo req.MFAConstraints = mi := by
        have hd : evaluateRequirement req tty ni =
            Decision.AutoResolve (getMFAMethodInfo req.MFAConstraints) := by
          simp [evaluateRequirement, hi, hid]
        rw [hd] at hdec
        exact Decision.AutoResolve.inj hdec
      simp [runWithSecret, hi, hid]
  · exfalso
    have hd : evaluateRequirement req tty ni = Decision.Defer := by
      simp [evaluateRequirement, hi]
    rw [hd] at hdec
    exact Decision.noConfusion hdec

/-- When the decision is Defer and a requirement is present, the tail of
Run emits the deferral warning and renders the original response. -/
theorem runWithSecret_defer (env : Env) (tty ni : Bool) (secret : Secret)
    (auth : SecretAuth) (req : MFARequirement)
    (hauth : secret.Auth = some auth) (hreq : auth.MFARequirement = some req)
    (hdec : evaluateRequirement req tty ni = Decision.Defer) :
    (runWithSecret env tty ni secret).1 =
      Event.uiWarn mfaDeferWarn ::
        (if env.flagField = "" then [Event.outputSecret secret]
         else [Event.printRawField secret env.flagField]) := by
  obtain ⟨authOpt⟩ := secret
  obtain rfl : authOpt = some auth := hauth
  obtain ⟨reqOpt⟩ := auth
  obtain rfl : reqOpt = some req := hreq
  by_cases hi : isInteractiveEnabled ni tty req.MFAConstraints.length = true
  · by_cases hid : (getMFAMethodInfo req.MFAConstraints).methodID = ""
    · by_cases hff : env.flagField = "" <;>
        simp [runWithSecret, hi, hid, hff, OutputSecret, PrintRawField]
    · exfalso
      have hd : evaluateRequirement req tty ni =
          Decision.AutoResolve (getMFAMethodInfo req.MFAConstraints) := by
        simp [evaluateRequirement, hi, hid]
      rw [hd] at hdec
      exact Decision.noConfusion hdec
  · by_cases hff : env.flagField = "" <;>
      simp [runWithSecret, hi, hff, OutputSecret, PrintRawField]

/-- Every validateMFA run submits at most one client write. -/
theorem validateMFA_write_count (env : Env) (rid : String) (mi : MFAMethodInfo) :
    List.countP isClientWriteEv (validateMFA env rid mi).1 ≤ 1 := by
  rcases hc : collectPasscode env mi with ⟨cevs, cp⟩
  have hcw := collectPasscode_no_write env mi
  rw [hc] at hcw
  simp only at hcw
  have hc0 : List.countP isClientWriteEv cevs = 0 := by
    rw [List.countP_eq_length_filter, hcw]
    rfl
  cases cp with
  | none =>
    rw [validateMFA_abort env rid mi cevs hc]
    simp [hc0]
  | some p =>
    cases he : env.clientErr with
    | some e =>
      rw [validateMFA_clientErr env rid mi cevs p e hc he]
      simp [List.countP_append, List.countP_cons, hc0, isClientWriteEv]
    | none =>
      obtain ⟨tail, code, heq, htail, -⟩ := validateMFA_write_shape env rid mi cevs p hc he
      rw [heq]
      have ht0 : List.countP isClientWriteEv tail = 0 := by
        rw [List.countP_eq_length_filter, htail]
        rfl
      simp [List.countP_append, List.countP_cons, hc0, ht0, isClientWriteEv]

/-- C7: a confirmation write happens only when the requirement has exactly
one constraint holding exactly one method; a requirement with several
constraints, or several methods in its single constraint, leads to no
confirmation write and to the deferral warning. -/
theorem C7_confirmation_only_single (env : Env) (tty ni : Bool) (secret : Secret) :
    (∀ pa body, Event.clientWrite pa body ∈ (runWithSecret env tty ni secret).1 →
      ∃ auth req name c m, secret.Auth = some auth ∧ auth.MFARequirement = some req ∧
        req.MFAConstraints = [(name, c)] ∧ c.Any = [m]) ∧
    (∀ auth req, secret.Auth = some auth → auth.MFARequirement = some req →
      (req.MFAConstraints.length ≠ 1 ∨
        ∀ name c, req.MFAConstraints = [(name, c)] → c.Any.length ≠ 1) →
      (∀ pa body, Event.clientWrite pa body ∉ (runWithSecret env tty ni secret).1) ∧
        Event.uiWarn mfaDeferWarn ∈ (runWithSecret env tty ni secret).1) := by
  constructor
  · intro pa body hmem
    obtain ⟨authOpt⟩ := secret
    rcases authOpt with _ | ⟨reqOpt⟩
    · by_cases hff : env.flagField = "" <;>
        simp [runWithSecret, hff, OutputSecret, PrintRawField] at hmem
    · rcases reqOpt with _ | req
      · by_cases hff : env.flagField = "" <;>
          simp [runWithSecret, hff, OutputSecret, PrintRawField] at hmem
      · obtain ⟨rid, cs⟩ := req
        rcases cs with _ | ⟨⟨name, ⟨anyList⟩⟩, _ | ⟨c2, rest⟩⟩
        · have hdef : evaluateRequirement ⟨rid, []⟩ tty ni = Decision.Defer := by
            cases tty <;> cases ni <;> simp [evaluateRequirement, isInteractiveEnabled]
          rw [runWithSecret_defer env tty ni _ ⟨some ⟨rid, []⟩⟩ ⟨rid, []⟩ rfl rfl hdef]
            at hmem
          by_cases hff : env.flagField = "" <;> simp [hff] at hmem
        · rcases anyList with _ | ⟨m, _ | ⟨m2, ms⟩⟩
          · have hdef : evaluateRequirement ⟨rid, [(name, ⟨[]⟩)]⟩ tty ni =
                Decision.Defer := by
              cases tty <;> cases ni <;>
                simp [evaluateRequirement, isInteractiveEnabled, getMFAMethodInfo,
                  emptyMethodInfo]
            rw [runWithSecret_defer env tty ni _ ⟨some ⟨rid, [(name, ⟨[]⟩)]⟩⟩
              ⟨rid, [(name, ⟨[]⟩)]⟩ rfl rfl hdef] at hmem
            by_cases hff : env.flagField = "" <;> simp [hff] at hmem
          · exact ⟨⟨some ⟨rid, [(name, ⟨[m]⟩)]⟩⟩, ⟨rid, [(name, ⟨[m]⟩)]⟩, name, ⟨[m]⟩, m,
              rfl, rfl, rfl, rfl⟩
          · have hdef : evaluateRequirement ⟨rid, [(name, ⟨m :: m2 :: ms⟩)]⟩ tty ni =
                Decision.Defer := by
              cases tty <;> cases ni <;>
                simp [evaluateRequirement, isInteractiveEnabled, getMFAMethodInfo,
                  emptyMethodInfo]
            rw [runWithSecret_defer env tty ni _ ⟨some ⟨rid, [(name, ⟨m :: m2 :: ms⟩)]⟩⟩
              ⟨rid, [(name, ⟨m :: m2 :: ms⟩)]⟩ rfl rfl hdef] at hmem
            by_cases hff : env.flagField = "" <;> simp [hff] at hmem
        · have hdef : evaluateRequirement ⟨rid, ⟨name, ⟨anyList⟩⟩ :: c2 :: rest⟩ tty ni =
              Decision.Defer := by
            cases tty <;> cases ni <;> simp [evaluateRequirement, isInteractiveEnabled]
          rw [runWithSecret_defer env tty ni _ ⟨some ⟨rid, ⟨name, ⟨anyList⟩⟩ :: c2 :: rest⟩⟩
            ⟨rid, ⟨name, ⟨anyList⟩⟩ :: c2 :: rest⟩ rfl rfl hdef] at hmem
          by_cases hff : env.flagField = "" <;> simp [hff] at hmem
  · intro auth req hauth hreq hmulti
    have hdef := evaluateRequirement_defer_of_multi req tty ni hmulti
    have htr := runWithSecret_defer env tty ni secret auth req hauth hreq hdef
    rw [htr]
    constructor
    · intro pa body
      by_cases hff : env.flagField = "" <;> simp [hff]
    · simp

/-- Witness for C7 at a two-constraint requirement: the deferral warning
is emitted. -/
theorem C7_confirmation_only_single_witness :
    Event.uiWarn mfaDeferWarn ∈
      (runWithSecret ⟨Except.ok "x", none, none, none, "table", ""⟩ true false
        ⟨some ⟨some ⟨"rid", [("c1", ⟨[⟨"totp", "m1", true⟩]⟩),
          ("c2", ⟨[⟨"totp", "m2", true⟩]⟩)]⟩⟩⟩).1 :=
  ((C7_confirmation_only_single ⟨Except.ok "x", none, none, none, "table", ""⟩ true false
      ⟨some ⟨some ⟨"rid", [("c1", ⟨[⟨"totp", "m1", true⟩]⟩),
        ("c2", ⟨[⟨"totp", "m2", true⟩]⟩)]⟩⟩⟩).2
    ⟨some ⟨"rid", [("c1", ⟨[⟨"totp", "m1", true⟩]⟩), ("c2", ⟨[⟨"totp", "m2", true⟩]⟩)]⟩⟩
    ⟨"rid", [("c1", ⟨[⟨"totp", "m1", true⟩]⟩), ("c2", ⟨[⟨"totp", "m2", true⟩]⟩)]⟩
    rfl rfl (Or.inl (by decide))).2

end Vault

namespace Vault

/-- C8: the confirmation response goes through the shared rendering path:
on success the exit code is 0 and the single field is printed when
requested, else the full response; an empty response prints the success
notice exactly when the output format is table; every prompt, client or
confirmation error exits with code 2. -/
theorem C8_rendering_and_exit (env : Env) (rid : String) (mi : MFAMethodInfo) :
    ((mi.usePasscode = true ∧ (∃ e, env.askSecretResult = Except.error e)) →
      (validateMFA env rid mi).2 = 2) ∧
    ((mi.usePasscode = false ∨ (∃ p, env.askSecretResult = Except.ok p)) →
      ((∃ e, env.clientErr = some e) → (validateMFA env rid mi).2 = 2) ∧
      (env.clientErr = none →
        ((∃ e, env.mfaWriteErr = some e) → (validateMFA env rid mi).2 = 2) ∧
        (env.mfaWriteErr = none →
          (validateMFA env rid mi).2 = 0 ∧
          (∀ b, env.mfaWriteSecret = some b →
            (env.flagField ≠ "" →
              Event.printRawField b env.flagField ∈ (validateMFA env rid mi).1) ∧
            (env.flagField = "" → Event.outputSecret b ∈ (validateMFA env rid mi).1)) ∧
          (env.mfaWriteSecret = none →
            (Event.uiInfo (successMsg validatePath) ∈ (validateMFA env rid mi).1 ↔
              env.format = "table"))))) := by
  constructor
  · rintro ⟨hp, e, hask⟩
    have hc : collectPasscode env mi =
        ([Event.askSecret (passcodePrompt mi), Event.uiError (readFailMsg e)], none) := by
      simp [collectPasscode, hp, hask]
    rw [validateMFA_abort env rid mi _ hc]
  · intro hok
    have hcc : ∃ cevs p, collectPasscode env mi = (cevs, some p) ∧
        (∀ msg, Event.uiInfo msg ∉ cevs) := by
      by_cases hp : mi.usePasscode
      · rcases hok with hp0 | ⟨p, hask⟩
        · rw [hp] at hp0; cases hp0
        · exact ⟨[Event.askSecret (passcodePrompt mi)], p,
            by simp [collectPasscode, hp, hask], by simp⟩
      · exact ⟨[Event.uiWarn pushNotice], "", by simp [collectPasscode, hp], by simp⟩
    obtain ⟨cevs, p, hc, hinfo⟩ := hcc
    constructor
    · rintro ⟨e, he⟩
      rw [validateMFA_clientErr env rid mi cevs p e hc he]
    · intro he
      constructor
      · rintro ⟨e, hw⟩
        cases hs : env.mfaWriteSecret <;>
          simp [validateMFA, hc, he, hw, hs, OutputSecret]
      · intro hw
        refine ⟨?_, ?_, ?_⟩
        · cases hs : env.mfaWriteSecret
          · by_cases hfmt : env.format = "table" <;>
              simp [validateMFA, hc, he, hw, hs, hfmt]
          · by_cases hff : env.flagField = "" <;>
              simp [validateMFA, hc, he, hw, hs, hff, OutputSecret, PrintRawField]
        · intro b hb
          constructor
          · intro hff
            simp [validateMFA, hc, he, hw, hb, hff, PrintRawField]
          · intro hff
            simp [validateMFA, hc, he, hw, hb, hff, OutputSecret]
        · intro hs
          by_cases hfmt : env.format = "table"
          · simp [validateMFA, hc, he, hw, hs, hfmt]
          · simp [validateMFA, hc, he, hw, hs, hfmt, hinfo]

/-- Witness for C8: a successful confirmation with an empty response in
table format exits with code 0. -/
theorem C8_rendering_and_exit_witness :
    (validateMFA ⟨Except.ok "123456", none, none, none, "table", ""⟩ "rid"
      ⟨"m1", "totp", true⟩).2 = 0 := by
  have h := C8_rendering_and_exit ⟨Except.ok "123456", none, none, none, "table", ""⟩
    "rid" ⟨"m1", "totp", true⟩
  exact (((h.2 (Or.inr ⟨"123456", rfl⟩)).2 rfl).2 rfl).1

/-- C9: across the whole tail of Run, the confirmation write to
sys/mfa/validate happens at most once; a failed submission is never
retried. -/
theorem C9_at_most_one_confirmation (env : Env) (tty ni : Bool) (secret : Secret) :
    List.countP isClientWriteEv (runWithSecret env tty ni secret).1 ≤ 1 := by
  obtain ⟨authOpt⟩ := secret
  rcases authOpt with _ | ⟨reqOpt⟩
  · by_cases hff : env.flagField = "" <;>
      simp [runWithSecret, hff, OutputSecret, PrintRawField, isClientWriteEv]
  · rcases reqOpt with _ | req
    · by_cases hff : env.flagField = "" <;>
        simp [runWithSecret, hff, OutputSecret, PrintRawField, isClientWriteEv]
    · cases hdec : evaluateRequirement req tty ni with
      | Defer =>
        rw [runWithSecret_defer env tty ni _ ⟨some req⟩ req rfl rfl hdec]
        by_cases hff : env.flagField = "" <;>
          simp [hff, List.countP_cons, isClientWriteEv]
      | AutoResolve mi =>
        rw [runWithSecret_auto env tty ni _ ⟨some req⟩ req mi rfl rfl hdec]
        exact validateMFA_write_count env req.MFARequestID mi

/-- C10: a single-constraint single-method requirement whose method id is
empty is not auto-resolved even interactively: no prompt, no confirmation
write, the deferral warning is shown and the original response is
rendered. -/
theorem C10_empty_id_deferred (env : Env) (tty ni : Bool) (secret : Secret)
    (auth : SecretAuth) (req : MFARequirement) (name : String) (c : MFAConstraintAny)
    (m : MFAMethodID) (hauth : secret.Auth = some auth)
    (hreq : auth.MFARequirement = some req)
    (hcs : req.MFAConstraints = [(name, c)]) (hany : c.Any = [m]) (hid : m.ID = "") :
    (∀ pr, Event.askSecret pr ∉ (runWithSecret env tty ni secret).1) ∧
    (∀ pa body, Event.clientWrite pa body ∉ (runWithSecret env tty ni secret).1) ∧
    Event.uiWarn mfaDeferWarn ∈ (runWithSecret env tty ni secret).1 ∧
    (env.flagField ≠ "" →
      Event.printRawField secret env.flagField ∈ (runWithSecret env tty ni secret).1) ∧
    (env.flagField = "" →
      Event.outputSecret secret ∈ (runWithSecret env tty ni secret).1) := by
  have hdef : evaluateRequirement req tty ni = Decision.Defer := by
    obtain ⟨rid, cs⟩ := req
    obtain rfl : cs = [(name, c)] := hcs
    obtain ⟨anyL⟩ := c
    obtain rfl : anyL = [m] := hany
    cases tty <;> cases ni <;>
      simp [evaluateRequirement, isInteractiveEnabled, getMFAMethodInfo, hid]
  have htr := runWithSecret_defer env tty ni secret auth req hauth hreq hdef
  rw [htr]
  refine ⟨?_, ?_, by simp, ?_, ?_⟩
  · intro pr
    by_cases hff : env.flagField = "" <;> simp [hff]
  · intro pa body
    by_cases hff : env.flagField = "" <;> simp [hff]
  · intro hff
    simp [hff]
  · intro hff
    simp [hff]

/-- Witness for C10 at a concrete empty-id method in an interactive
session. -/
theorem C10_empty_id_deferred_witness :
    Event.uiWarn mfaDeferWarn ∈
      (runWithSecret ⟨Except.ok "x", none, none, none, "table", ""⟩ true false
        ⟨some ⟨some ⟨"rid", [("c1", ⟨[⟨"totp", "", true⟩]⟩)]⟩⟩⟩).1 :=
  (C10_empty_id_deferred ⟨Except.ok "x", none, none, none, "table", ""⟩ true false
    ⟨some ⟨some ⟨"rid", [("c1", ⟨[⟨"totp", "", true⟩]⟩)]⟩⟩⟩
    ⟨some ⟨"rid", [("c1", ⟨[⟨"totp", "", true⟩]⟩)]⟩⟩
    ⟨"rid", [("c1", ⟨[⟨"totp", "", true⟩]⟩)]⟩
    "c1" ⟨[⟨"totp", "", true⟩]⟩ ⟨"totp", "", true⟩ rfl rfl rfl rfl rfl).2.2.1

end Vault

namespace Vault

/-- Witness for C1 (amended): with a non-empty method id, one constraint,
one method and an interactive session the decision is not Defer. -/
theorem C1_eligibility_decision_witness :
    evaluateRequirement ⟨"rid", [("c1", ⟨[⟨"totp", "m1", true⟩]⟩)]⟩ true false ≠
      Decision.Defer :=
  (C1_eligibility_decision ⟨"rid", [("c1", ⟨[⟨"totp", "m1", true⟩]⟩)]⟩ true false).mpr
    ⟨⟨"c1", ⟨[⟨"totp", "m1", true⟩]⟩, ⟨"totp", "m1", true⟩, rfl, rfl, by decide⟩, rfl, rfl⟩

/-- Witness for C9 at a concrete auto-resolved run. -/
theorem C9_at_most_one_confirmation_witness :
    List.countP isClientWriteEv
      (runWithSecret ⟨Except.ok "123456", none, none, none, "table", ""⟩ true false
        ⟨some ⟨some ⟨"rid", [("c1", ⟨[⟨"totp", "m1", true⟩]⟩)]⟩⟩⟩).1 ≤ 1 :=
  C9_at_most_one_confirmation ⟨Except.ok "123456", none, none, none, "table", ""⟩ true false
    ⟨some ⟨some ⟨"rid", [("c1", ⟨[⟨"totp", "m1", true⟩]⟩)]⟩⟩⟩

end Vault
